import Mathlib

/-!
Verification development for the warehouse shift-planning calculator
(`src/utils/calculations.js`).

Modelling conventions:
* JavaScript numbers are modelled as rationals (`ℚ`).  All quantities the
  engine manipulates (hours, order counts, speeds) are exact rationals in the
  source scenarios, so no floating-point rounding is modelled.  Where a JS
  division can produce a non-finite artifact (`Infinity`/`NaN`), a dedicated
  artifact-aware division `jsDiv` returning `Option ℚ` is used (`none` models
  the non-finite result).
* Wall-clock instants: the source anchors every parsed time-of-day to the
  current calendar day via `new Date(y, m, d, hours, minutes)` and only ever
  takes differences, divided by `3600*1000` to get hours.  A same-day instant
  is therefore modelled as a rational number of hours since midnight, and the
  impure `new Date()` reference instant becomes an explicit parameter `now`.
* A JS falsy guard on a settings field (`!settings.shiftStart`) is modelled by
  an `Option` field (`none` = missing/empty string).
* `Number(x) || 0` coercions on numeric settings fields are modelled by taking
  the already-coerced rational as the field value.
* The `breaks` field is modelled in its array form (list of `{start, end}`
  records, possibly with missing endpoints); the legacy comma-separated-string
  form of `breaks` (only read when computing total break hours, never for
  elapsed break time) is outside the claims and not modelled.
-/

namespace WarehouseCalc

/-- A break interval as stored in settings: `{start, end}` time-of-day fields,
each possibly missing (the source skips a break unless
`brk.start && brk.end`).  Times are hours since midnight. -/
structure Break where
  bStart : Option ℚ
  bEnd : Option ℚ
deriving DecidableEq

/-- Shift settings consumed by the engine (`settings` object in the source).
`shiftStart`/`shiftEnd` are the `parseTime`d times-of-day in hours
(`none` = unset, the falsy guard branch).  `expectedOrders`, `avgSpeed`,
`staffForLastPeriod` are the numbers obtained by the source's
`Number(...)` coercions. -/
structure Settings where
  shiftStart : Option ℚ
  shiftEnd : Option ℚ
  breaks : List Break
  expectedOrders : ℚ
  avgSpeed : ℚ
  staffForLastPeriod : ℚ
deriving DecidableEq

/-- Duration in hours of one break interval; 0 when an endpoint is missing
(source: `if (brk.start && brk.end) { totalBreakHours += breakEnd - breakStart }`). -/
def breakDuration (b : Break) : ℚ :=
  match b.bStart, b.bEnd with
  | some s, some e => e - s
  | _, _ => 0

/-- Total break hours: sum of `breakDuration` over the list
(source: the `totalBreakHours` accumulation loop). -/
def totalBreakHours (bs : List Break) : ℚ :=
  (bs.map breakDuration).sum

/-- Elapsed portion of one break interval at reference instant `now`
(source: the `breakTimePassed` loop body:
`if (now >= breakEnd) full; else if (now > breakStart && now < breakEnd) now - breakStart; else 0`). -/
def breakElapsed (now : ℚ) (b : Break) : ℚ :=
  match b.bStart, b.bEnd with
  | some s, some e =>
      if e ≤ now then e - s
      else if s < now ∧ now < e then now - s
      else 0
  | _, _ => 0

/-- Break time elapsed by instant `now`: sum of `breakElapsed` over the list
(source: the `breakTimePassed` accumulation loop; the identical loop appears
in `calculateExpectedAtTime` as `breakBefore`). -/
def breakTimePassedAt (now : ℚ) (bs : List Break) : ℚ :=
  (bs.map (breakElapsed now)).sum

/-- The adjusted required speed of the Required-Speed Model (source lines:
`baseSpeed = R / totalWorkTime`;
`candidateSpeed = totalWorkTime > 1 ? (R - staffLastHour * avgSpeed) / (totalWorkTime - 1) : baseSpeed`;
`newRequiredSpeed = Math.max(baseSpeed, candidateSpeed)`).
Both `calculateDeviations` and `calculateExpectedAtTime` compute exactly this
expression (per process, with identical inputs). -/
def newRequiredSpeedOf (R T staff avg : ℚ) : ℚ :=
  max (R / T) (if 1 < T then (R - staff * avg) / (T - 1) else R / T)

/-- Cap of the expected-processed value at the total target
(source: `if (expectedProcessed > R) expectedProcessed = R`). -/
def cappedExpected (R speed eff : ℚ) : ℚ :=
  if R < speed * eff then R else speed * eff

/-- Result record returned by `calculateDeviations`. -/
structure DeviationResult where
  pickingDeviation : ℚ
  packingDeviation : ℚ
  hoursPassed : ℚ
  expectedProcessedPicking : ℚ
  expectedProcessedPacking : ℚ
  requiredSpeedPicking : ℚ
  requiredSpeedPacking : ℚ
  totalWorkTime : ℚ
deriving DecidableEq

/-- The Deviation Engine (`calculateDeviations` in `src/utils/calculations.js`),
with the impure `new Date()` made an explicit reference instant `now` (hours
since midnight).  Field-for-field translation:
raw elapsed is clamped to `[0, totalShiftHours]` only from above after the
`now > shiftStartDate` guard, effective hours are NOT floored at 0, the
expected-processed values are capped at `R`, and a deviation is forced to 0
when the actual reaches `R`. -/
def calculateDeviations (settings : Settings) (pickedActual packedActual now : ℚ) :
    DeviationResult :=
  match settings.shiftStart, settings.shiftEnd with
  | some st, some en =>
    let totalShiftHours := en - st
    let totalWorkTime := totalShiftHours - totalBreakHours settings.breaks
    let rawHoursPassed := if st < now then min (now - st) totalShiftHours else 0
    let effectiveHoursPassed := rawHoursPassed - breakTimePassedAt now settings.breaks
    let R := settings.expectedOrders
    let speedPicking :=
      newRequiredSpeedOf R totalWorkTime settings.staffForLastPeriod settings.avgSpeed
    let speedPacking :=
      newRequiredSpeedOf R totalWorkTime settings.staffForLastPeriod settings.avgSpeed
    let expectedProcessedPicking := cappedExpected R speedPicking effectiveHoursPassed
    let expectedProcessedPacking := cappedExpected R speedPacking effectiveHoursPassed
    { pickingDeviation :=
        if R ≤ pickedActual then 0 else pickedActual - expectedProcessedPicking
      packingDeviation :=
        if R ≤ packedActual then 0 else packedActual - expectedProcessedPacking
      hoursPassed := effectiveHoursPassed
      expectedProcessedPicking := expectedProcessedPicking
      expectedProcessedPacking := expectedProcessedPacking
      requiredSpeedPicking := speedPicking
      requiredSpeedPacking := speedPacking
      totalWorkTime := totalWorkTime }
  | _, _ =>
    { pickingDeviation := 0
      packingDeviation := 0
      hoursPassed := 0
      expectedProcessedPicking := 0
      expectedProcessedPacking := 0
      requiredSpeedPicking := 0
      requiredSpeedPacking := 0
      totalWorkTime := 0 }

/-- Result record returned by `calculateExpectedAtTime`. -/
structure ExpectedAtTime where
  expectedPicking : ℚ
  expectedPacking : ℚ
deriving DecidableEq

/-- The Control-Point Projector (`calculateExpectedAtTime` in
`src/utils/calculations.js`): same shift clock and Required-Speed Model with
the checkpoint time as reference instant.  Differences from
`calculateDeviations`, kept faithfully: raw hours are floored at 0 but NOT
clamped above at the shift duration, and effective hours ARE floored at 0
(`Math.max(rawHours - breakBefore, 0)`). -/
def calculateExpectedAtTime (settings : Settings) (controlTime : Option ℚ) :
    ExpectedAtTime :=
  match controlTime, settings.shiftStart, settings.shiftEnd with
  | some cp, some st, some en =>
    let rawHours := max (cp - st) 0
    let effectiveHours := max (rawHours - breakTimePassedAt cp settings.breaks) 0
    let totalWorkTime := (en - st) - totalBreakHours settings.breaks
    let R := settings.expectedOrders
    let speedPicking :=
      newRequiredSpeedOf R totalWorkTime settings.staffForLastPeriod settings.avgSpeed
    let speedPacking :=
      newRequiredSpeedOf R totalWorkTime settings.staffForLastPeriod settings.avgSpeed
    { expectedPicking := cappedExpected R speedPicking effectiveHours
      expectedPacking := cappedExpected R speedPacking effectiveHours }
  | _, _, _ => { expectedPicking := 0, expectedPacking := 0 }

/-- Clamp of `x` into `[lo, hi]` (helper for reasoning about the interval
accumulator; not itself part of the source). -/
def clampQ (x lo hi : ℚ) : ℚ := min (max x lo) hi

/-- Well-formedness of a break list relative to a window `[lo, hi]`: every
break has both endpoints, the breaks are ordered, pairwise disjoint and
contained in the window.  This is the spec's §3 invariant on `breaks`
(each `end` after its `start`, non-overlapping, within the shift). -/
def BreaksWF : ℚ → ℚ → List Break → Prop
  | lo, hi, [] => lo ≤ hi
  | lo, hi, b :: bs =>
      ∃ s e, b.bStart = some s ∧ b.bEnd = some e ∧ lo ≤ s ∧ s ≤ e ∧ BreaksWF e hi bs

theorem BreaksWF.le {lo hi : ℚ} : ∀ {bs : List Break}, BreaksWF lo hi bs → lo ≤ hi
  | [], h => h
  | _ :: _, ⟨s, e, _, _, hlos, hse, hwf⟩ =>
      le_trans hlos (le_trans hse (BreaksWF.le hwf))

theorem clampQ_le_hi (x lo hi : ℚ) : clampQ x lo hi ≤ hi := min_le_right _ _

theorem le_clampQ (x : ℚ) {lo hi : ℚ} (h : lo ≤ hi) : lo ≤ clampQ x lo hi :=
  le_min (le_max_right _ _) h

theorem clampQ_split {x a b c : ℚ} (hab : a ≤ b) (hbc : b ≤ c) :
    clampQ x a c = clampQ x a b + (clampQ x b c - b) := by
  simp only [clampQ, min_def, max_def]
  split_ifs <;> linarith

theorem breakElapsed_eq_clamp {now s e : ℚ} (hse : s ≤ e) (b : Break)
    (h1 : b.bStart = some s) (h2 : b.bEnd = some e) :
    breakElapsed now b = clampQ now s e - s := by
  obtain ⟨x, y⟩ := b
  cases h1; cases h2
  simp only [breakElapsed]
  rcases le_or_lt e now with he | he
  · rw [if_pos he]
    simp only [clampQ, min_def, max_def]
    split_ifs <;> linarith
  · rw [if_neg (not_le.mpr he)]
    rcases le_or_lt now s with hs | hs
    · rw [if_neg (by rintro ⟨a, _⟩; linarith)]
      simp only [clampQ, min_def, max_def]
      split_ifs <;> linarith
    · rw [if_pos ⟨hs, he⟩]
      simp only [clampQ, min_def, max_def]
      split_ifs <;> linarith

theorem breakDuration_eq {s e : ℚ} (b : Break)
    (h1 : b.bStart = some s) (h2 : b.bEnd = some e) :
    breakDuration b = e - s := by
  obtain ⟨x, y⟩ := b
  cases h1; cases h2
  rfl

/-- Core bound on the interval accumulator: over a well-formed break list in
`[lo, hi]`, the elapsed break time at any instant is at most the elapsed
window time, and the remaining break time is at most the remaining window
time. -/
theorem breaks_bounds (now : ℚ) :
    ∀ (bs : List Break) (lo hi : ℚ), BreaksWF lo hi bs →
      breakTimePassedAt now bs ≤ clampQ now lo hi - lo ∧
      totalBreakHours bs - breakTimePassedAt now bs ≤ hi - clampQ now lo hi := by
  intro bs
  induction bs with
  | nil =>
      intro lo hi h
      constructor
      · simpa [breakTimePassedAt] using le_clampQ now h
      · simpa [breakTimePassedAt, totalBreakHours] using clampQ_le_hi now lo hi
  | cons b bs ih =>
      intro lo hi h
      obtain ⟨s, e, h1, h2, hlos, hse, hwf⟩ := h
      have hehi : e ≤ hi := hwf.le
      have hshi : s ≤ hi := le_trans hse hehi
      obtain ⟨ihA, ihB⟩ := ih e hi hwf
      have hsplit1 : clampQ now lo hi = clampQ now lo s + (clampQ now s hi - s) :=
        clampQ_split hlos hshi
      have hsplit2 : clampQ now s hi = clampQ now s e + (clampQ now e hi - e) :=
        clampQ_split hse hehi
      have hlo1 : lo ≤ clampQ now lo s := le_clampQ now hlos
      have hcl1 : clampQ now lo s ≤ s := clampQ_le_hi now lo s
      have hel : breakElapsed now b = clampQ now s e - s :=
        breakElapsed_eq_clamp hse b h1 h2
      have hdu : breakDuration b = e - s := breakDuration_eq b h1 h2
      have hs1 : s ≤ clampQ now s e := le_clampQ now hse
      have hs2 : clampQ now s e ≤ e := clampQ_le_hi now s e
      constructor
      · have : breakTimePassedAt now (b :: bs) =
            breakElapsed now b + breakTimePassedAt now bs := by
          simp [breakTimePassedAt]
        rw [this, hel]
        linarith
      · have hbp : breakTimePassedAt now (b :: bs) =
            breakElapsed now b + breakTimePassedAt now bs := by
          simp [breakTimePassedAt]
        have htb : totalBreakHours (b :: bs) = breakDuration b + totalBreakHours bs := by
          simp [totalBreakHours]
        rw [hbp, htb, hel, hdu]
        linarith

/-- Once the reference instant has passed the window, every well-formed break
has fully elapsed. -/
theorem breakTimePassedAt_full (now : ℚ) :
    ∀ (bs : List Break) (lo hi : ℚ), BreaksWF lo hi bs → hi ≤ now →
      breakTimePassedAt now bs = totalBreakHours bs := by
  intro bs
  induction bs with
  | nil => intro lo hi _ _; simp [breakTimePassedAt, totalBreakHours]
  | cons b bs ih =>
      intro lo hi h hnow
      obtain ⟨s, e, h1, h2, hlos, hse, hwf⟩ := h
      have hehi : e ≤ hi := hwf.le
      have hfull : breakElapsed now b = breakDuration b := by
        obtain ⟨x, y⟩ := b
        cases h1; cases h2
        simp only [breakElapsed, breakDuration]
        rw [if_pos (le_trans hehi hnow)]
      have : breakTimePassedAt now (b :: bs) =
          breakElapsed now b + breakTimePassedAt now bs := by
        simp [breakTimePassedAt]
      rw [this, hfull, ih e hi hwf hnow]
      simp [totalBreakHours]

/-- Total break hours fit inside the window for well-formed breaks. -/
theorem totalBreakHours_le {lo hi : ℚ} {bs : List Break} (h : BreaksWF lo hi bs) :
    totalBreakHours bs ≤ hi - lo := by
  obtain ⟨hA, hB⟩ := breaks_bounds lo bs lo hi h
  have h1 : lo ≤ clampQ lo lo hi := le_clampQ lo h.le
  have h2 : clampQ lo lo hi ≤ hi := clampQ_le_hi lo lo hi
  linarith

/-- The raw-hours computation of `calculateDeviations` equals a window clamp. -/
theorem rawHours_eq_clamp {st en now : ℚ} (h : st ≤ en) :
    (if st < now then min (now - st) (en - st) else 0) = clampQ now st en - st := by
  simp only [clampQ, min_def, max_def]
  split_ifs <;> linarith

theorem cappedExpected_eq_min (R s e : ℚ) : cappedExpected R s e = min R (s * e) := by
  simp only [cappedExpected, min_def]
  split_ifs <;> linarith

/-- Claim C1: for every configuration with total effective work time `T > 1`,
the required speed computed by the Deviation Engine equals
`max(baseSpeed, candidateSpeed)` with `baseSpeed = expectedOrders / T` and
`candidateSpeed = (expectedOrders − staffForLastPeriod × avgSpeed) / (T − 1)`;
for `T ≤ 1` the candidate falls back to `baseSpeed` (so the required speed is
`baseSpeed`); and the required speed is never below `baseSpeed`. -/
theorem C1_requiredSpeed_formula (bs : List Break) (R avg staff pa pk now st en : ℚ) :
    ((1 : ℚ) < (en - st) - totalBreakHours bs →
      (calculateDeviations ⟨some st, some en, bs, R, avg, staff⟩ pa pk now).requiredSpeedPicking
          = max (R / ((en - st) - totalBreakHours bs))
              ((R - staff * avg) / ((en - st) - totalBreakHours bs - 1)) ∧
      (calculateDeviations ⟨some st, some en, bs, R, avg, staff⟩ pa pk now).requiredSpeedPacking
          = max (R / ((en - st) - totalBreakHours bs))
              ((R - staff * avg) / ((en - st) - totalBreakHours bs - 1))) ∧
    ((en - st) - totalBreakHours bs ≤ 1 →
      (calculateDeviations ⟨some st, some en, bs, R, avg, staff⟩ pa pk now).requiredSpeedPicking
          = R / ((en - st) - totalBreakHours bs)) ∧
    R / ((en - st) - totalBreakHours bs)
      ≤ (calculateDeviations ⟨some st, some en, bs, R, avg, staff⟩ pa pk now).requiredSpeedPicking := by
  dsimp only [calculateDeviations]
  unfold newRequiredSpeedOf
  refine ⟨fun hT => ?_, fun hT => ?_, le_max_left _ _⟩
  · rw [if_pos hT]
    exact ⟨rfl, rfl⟩
  · rw [if_neg (not_lt.mpr hT), max_self]

theorem C1_requiredSpeed_formula_witness :
    (calculateDeviations ⟨some 8, some 16, [], 800, 25, 2⟩ 0 0 12).requiredSpeedPicking
        = max (800 / ((16 - 8) - totalBreakHours []))
            ((800 - 2 * 25) / ((16 - 8) - totalBreakHours [] - 1)) ∧
    800 / ((16 - 8) - totalBreakHours [])
      ≤ (calculateDeviations ⟨some 8, some 16, [], 800, 25, 2⟩ 0 0 12).requiredSpeedPicking := by
  have h := C1_requiredSpeed_formula [] 800 25 2 0 0 12 8 16
  exact ⟨(h.1 (by norm_num [totalBreakHours])).1, h.2.2⟩

/-- Claim C2: the Deviation Engine's expected-processed value equals
`requiredSpeed × hoursPassed` capped at `expectedOrders` (hence never exceeds
the target), and the deviation is exactly 0 once the actual reaches
`expectedOrders`, and `actual − expectedProcessed` otherwise — for each
process. -/
theorem C2_expected_cap_and_deviation (bs : List Break) (R avg staff pa pk now st en : ℚ) :
    ((calculateDeviations ⟨some st, some en, bs, R, avg, staff⟩ pa pk now).expectedProcessedPicking
        = min R
          ((calculateDeviations ⟨some st, some en, bs, R, avg, staff⟩ pa pk now).requiredSpeedPicking *
            (calculateDeviations ⟨some st, some en, bs, R, avg, staff⟩ pa pk now).hoursPassed)) ∧
    (calculateDeviations ⟨some st, some en, bs, R, avg, staff⟩ pa pk now).expectedProcessedPicking ≤ R ∧
    ((calculateDeviations ⟨some st, some en, bs, R, avg, staff⟩ pa pk now).expectedProcessedPacking
        = min R
          ((calculateDeviations ⟨some st, some en, bs, R, avg, staff⟩ pa pk now).requiredSpeedPacking *
            (calculateDeviations ⟨some st, some en, bs, R, avg, staff⟩ pa pk now).hoursPassed)) ∧
    (calculateDeviations ⟨some st, some en, bs, R, avg, staff⟩ pa pk now).expectedProcessedPacking ≤ R ∧
    (R ≤ pa →
      (calculateDeviations ⟨some st, some en, bs, R, avg, staff⟩ pa pk now).pickingDeviation = 0) ∧
    (pa < R →
      (calculateDeviations ⟨some st, some en, bs, R, avg, staff⟩ pa pk now).pickingDeviation
        = pa - (calculateDeviations ⟨some st, some en, bs, R, avg, staff⟩ pa pk now).expectedProcessedPicking) ∧
    (R ≤ pk →
      (calculateDeviations ⟨some st, some en, bs, R, avg, staff⟩ pa pk now).packingDeviation = 0) ∧
    (pk < R →
      (calculateDeviations ⟨some st, some en, bs, R, avg, staff⟩ pa pk now).packingDeviation
        = pk - (calculateDeviations ⟨some st, some en, bs, R, avg, staff⟩ pa pk now).expectedProcessedPacking) := by
  dsimp only [calculateDeviations]
  refine ⟨cappedExpected_eq_min _ _ _, ?_, cappedExpected_eq_min _ _ _, ?_,
    fun h => if_pos h, fun h => if_neg (not_le.mpr h),
    fun h => if_pos h, fun h => if_neg (not_le.mpr h)⟩ <;>
  · rw [cappedExpected_eq_min]
    exact min_le_left _ _

theorem C2_expected_cap_and_deviation_witness :
    ((calculateDeviations ⟨some 8, some 16, [], 800, 25, 2⟩ 900 400 12).pickingDeviation = 0) ∧
    ((calculateDeviations ⟨some 8, some 16, [], 800, 25, 2⟩ 900 400 12).packingDeviation
      = 400 - (calculateDeviations ⟨some 8, some 16, [], 800, 25, 2⟩ 900 400 12).expectedProcessedPacking) := by
  have h := C2_expected_cap_and_deviation [] 800 25 2 900 400 12 8 16
  exact ⟨h.2.2.2.2.1 (by norm_num), h.2.2.2.2.2.2.2 (by norm_num)⟩

/-- Claim C10: in the per-process variant, both processes share the same
required speed and the same expected-processed value for every settings input
and every pair of actuals; the two processes' outputs can differ only through
their deviations. -/
theorem C10_processes_share_speed (settings : Settings) (pa pk now : ℚ) :
    (calculateDeviations settings pa pk now).requiredSpeedPicking =
      (calculateDeviations settings pa pk now).requiredSpeedPacking ∧
    (calculateDeviations settings pa pk now).expectedProcessedPicking =
      (calculateDeviations settings pa pk now).expectedProcessedPacking := by
  unfold calculateDeviations
  rcases settings.shiftStart with _ | st <;> rcases settings.shiftEnd with _ | en <;>
    exact ⟨rfl, rfl⟩

/-- Claim C5, counterexample to the stated bounds: with a break lying before
the shift window (break 08:00–09:00, shift 10:00–12:00) and reference instant
09:30, the engine returns `hoursPassed = −1`, which is **negative** — the
effective hours are not floored at 0 in `calculateDeviations`. -/
theorem C5_hoursPassed_counterexample :
    (calculateDeviations ⟨some 10, some 12, [⟨some 8, some 9⟩], 100, 0, 0⟩ 0 0
        (19/2)).hoursPassed = -1 ∧
    ¬ (0 : ℚ) ≤ -1 := by
  constructor
  · dsimp only [calculateDeviations]
    norm_num [breakTimePassedAt, breakElapsed, totalBreakHours, breakDuration]
  · norm_num

/-- Claim C5 as amended: raw elapsed time is clamped to the shift window and
the effective hours are `raw − elapsed break time` with **no** explicit floor
at 0; nevertheless, whenever the breaks are well-formed (both endpoints
present, ordered, pairwise disjoint, and contained in the shift window), the
returned `hoursPassed` does lie in `[0, totalWorkTime]`. -/
theorem C5_hoursPassed_bounds_amended (bs : List Break) (R avg staff pa pk now st en : ℚ)
    (hwf : BreaksWF st en bs) :
    0 ≤ (calculateDeviations ⟨some st, some en, bs, R, avg, staff⟩ pa pk now).hoursPassed ∧
    (calculateDeviations ⟨some st, some en, bs, R, avg, staff⟩ pa pk now).hoursPassed ≤
      (calculateDeviations ⟨some st, some en, bs, R, avg, staff⟩ pa pk now).totalWorkTime := by
  have hsten : st ≤ en := hwf.le
  obtain ⟨hA, hB⟩ := breaks_bounds now bs st en hwf
  dsimp only [calculateDeviations]
  rw [rawHours_eq_clamp hsten]
  constructor <;> linarith

theorem C5_hoursPassed_bounds_amended_witness :
    0 ≤ (calculateDeviations ⟨some 10, some 12, [⟨some (21/2), some 11⟩], 100, 25, 2⟩ 0 0
        (23/2)).hoursPassed ∧
    (calculateDeviations ⟨some 10, some 12, [⟨some (21/2), some 11⟩], 100, 25, 2⟩ 0 0
        (23/2)).hoursPassed ≤
      (calculateDeviations ⟨some 10, some 12, [⟨some (21/2), some 11⟩], 100, 25, 2⟩ 0 0
        (23/2)).totalWorkTime :=
  C5_hoursPassed_bounds_amended [⟨some (21/2), some 11⟩] 100 25 2 0 0 (23/2) 10 12
    ⟨21/2, 11, rfl, rfl, by norm_num, by norm_num, by norm_num [BreaksWF]⟩

theorem cappedExpected_of_ge {R s e : ℚ} (h : R ≤ s * e) : cappedExpected R s e = R := by
  simp only [cappedExpected]
  split_ifs <;> linarith

/-- Claim C4, counterexample: for a configuration whose break lies before the
shift window (break 08:00–09:00, shift 10:00–12:00) and reference instant
09:30, the Control-Point Projector returns expected 0 (it floors effective
hours at 0) while the Deviation Engine returns expected −100 (it does not),
so the two code paths disagree. -/
theorem C4_checkpoint_counterexample :
    (calculateExpectedAtTime ⟨some 10, some 12, [⟨some 8, some 9⟩], 100, 0, 0⟩
        (some (19/2))).expectedPicking = 0 ∧
    (calculateDeviations ⟨some 10, some 12, [⟨some 8, some 9⟩], 100, 0, 0⟩ 0 0
        (19/2)).expectedProcessedPicking = -100 ∧
    (0 : ℚ) ≠ -100 := by
  refine ⟨?_, ?_, by norm_num⟩
  · dsimp only [calculateExpectedAtTime]
    norm_num [breakTimePassedAt, breakElapsed, totalBreakHours, breakDuration,
      newRequiredSpeedOf, cappedExpected, max_def, min_def]
  · dsimp only [calculateDeviations]
    norm_num [breakTimePassedAt, breakElapsed, totalBreakHours, breakDuration,
      newRequiredSpeedOf, cappedExpected, max_def, min_def]

/-- Claim C4 as amended: for configurations with well-formed breaks (both
endpoints present, ordered, disjoint, contained in the shift window), a
positive total effective work time and a non-negative order target,
`calculateExpectedAtTime` evaluated at the current reference instant equals
the `expectedProcessed` of `calculateDeviations` at that instant, for each
process. -/
theorem C4_checkpoint_consistency_amended (bs : List Break) (R avg staff pa pk now st en : ℚ)
    (hwf : BreaksWF st en bs)
    (hT : 0 < (en - st) - totalBreakHours bs)
    (hR : 0 ≤ R) :
    (calculateExpectedAtTime ⟨some st, some en, bs, R, avg, staff⟩ (some now)).expectedPicking
      = (calculateDeviations ⟨some st, some en, bs, R, avg, staff⟩ pa pk now).expectedProcessedPicking ∧
    (calculateExpectedAtTime ⟨some st, some en, bs, R, avg, staff⟩ (some now)).expectedPacking
      = (calculateDeviations ⟨some st, some en, bs, R, avg, staff⟩ pa pk now).expectedProcessedPacking := by
  have hsten : st ≤ en := hwf.le
  obtain ⟨hA, hB⟩ := breaks_bounds now bs st en hwf
  dsimp only [calculateDeviations, calculateExpectedAtTime]
  rw [rawHours_eq_clamp hsten]
  set T := (en - st) - totalBreakHours bs with hTdef
  set S := newRequiredSpeedOf R T staff avg with hSdef
  set bp := breakTimePassedAt now bs with hbpdef
  have hRS : R / T ≤ S := by
    rw [hSdef]
    unfold newRequiredSpeedOf
    exact le_max_left _ _
  have hS0 : 0 ≤ S := le_trans (div_nonneg hR (le_of_lt hT)) hRS
  suffices h : cappedExpected R S (max (max (now - st) 0 - bp) 0)
      = cappedExpected R S (clampQ now st en - st - bp) from ⟨h, h⟩
  rcases le_or_lt now en with hen | hen
  · -- reference instant inside (or before) the shift window
    have hcl : clampQ now st en = max now st := min_eq_left (max_le hen hsten)
    have hraw : max (now - st) 0 = max now st - st := by
      rcases le_total now st with h | h
      · rw [max_eq_right (by linarith : now - st ≤ 0), max_eq_right h]
        ring
      · rw [max_eq_left (by linarith : (0 : ℚ) ≤ now - st), max_eq_left h]
    have heff : (0 : ℚ) ≤ max now st - st - bp := by
      rw [hcl] at hA
      linarith
    rw [hcl, hraw, max_eq_left heff]
  · -- reference instant after the shift end: both sides are capped at R
    have hcl : clampQ now st en = en :=
      min_eq_right (le_trans (le_of_lt hen) (le_max_left _ _))
    have hbpfull : bp = totalBreakHours bs :=
      breakTimePassedAt_full now bs st en hwf (le_of_lt hen)
    have hST : R ≤ S * T := by
      have h1 : R / T * T ≤ S * T :=
        mul_le_mul_of_nonneg_right hRS (le_of_lt hT)
      rwa [div_mul_cancel₀ R (ne_of_gt hT)] at h1
    have hraw : max (now - st) 0 = now - st :=
      max_eq_left (by linarith)
    have heffCE : max (now - st) 0 - bp = now - st - totalBreakHours bs := by
      rw [hraw, hbpfull]
    have hTle : T ≤ now - st - totalBreakHours bs := by
      rw [hTdef]
      linarith
    have heffCE' : max (max (now - st) 0 - bp) 0 = now - st - totalBreakHours bs := by
      rw [heffCE]
      exact max_eq_left (by linarith)
    have heffCD : clampQ now st en - st - bp = T := by
      rw [hcl, hbpfull, hTdef]
    rw [heffCE', heffCD]
    rw [cappedExpected_of_ge hST, cappedExpected_of_ge (le_trans hST
      (mul_le_mul_of_nonneg_left hTle hS0))]

theorem C4_checkpoint_consistency_amended_witness :
    (calculateExpectedAtTime ⟨some 8, some 16, [], 800, 25, 2⟩ (some 12)).expectedPicking
      = (calculateDeviations ⟨some 8, some 16, [], 800, 25, 2⟩ 0 0 12).expectedProcessedPicking ∧
    (calculateExpectedAtTime ⟨some 8, some 16, [], 800, 25, 2⟩ (some 12)).expectedPacking
      = (calculateDeviations ⟨some 8, some 16, [], 800, 25, 2⟩ 0 0 12).expectedProcessedPacking :=
  C4_checkpoint_consistency_amended [] 800 25 2 0 0 12 8 16
    (by norm_num [BreaksWF]) (by norm_num [totalBreakHours]) (by norm_num)

/-- JS division with the non-finite artifact made explicit: `none` models the
`Infinity`/`NaN` a JS division by zero produces; `some` is the ordinary finite
quotient.  Used wherever a source division has no zero-denominator guard. -/
def jsDiv (a b : ℚ) : Option ℚ := if b = 0 then none else some (a / b)

/-- The three guidance-text templates of `calculateRecommendations`, with the
employee figure kept exact (`toFixed(2)` display rounding is not modelled);
`none` as the figure models the `Infinity` artifact of an unguarded division. -/
inductive RecMessage where
  | addEmployees (n : Option ℚ)
  | removeEmployees (n : Option ℚ)
  | planMetExactly
deriving DecidableEq

/-- One process's recommendation: the guidance message plus the optional
"Additionally, for the last hour, add N employees" addendum appended when
last-hour indicators are supplied. -/
structure Recommendation where
  message : RecMessage
  lastHourAdd : Option ℚ
deriving DecidableEq

/-- Result of `calculateRecommendations`. -/
structure Recommendations where
  packing : Recommendation
  picking : Recommendation
deriving DecidableEq

/-- Result of `calculateLastHourIndicators`. -/
structure LastHourIndicators where
  expectedOrdersLastHour : ℚ
  staffNeededPacking : ℚ
  staffNeededPicking : ℚ
deriving DecidableEq

/-- The Recommendation Generator (`calculateRecommendations` in
`src/utils/calculations.js`).  Note the divisor: the source computes
`Math.abs(deviation) / (individualSpeed * 2)` with
`individualSpeed = Number(settings.avgSpeed) || 0` — the division is
unguarded, so a zero average speed yields the `Infinity` artifact (`none`). -/
def calculateRecommendations (deviations : DeviationResult) (settings : Settings)
    (lastHourIndicators : Option LastHourIndicators) : Recommendations :=
  let individualSpeed := settings.avgSpeed
  let packingMessage :=
    if deviations.packingDeviation < 0 then
      RecMessage.addEmployees (jsDiv (abs deviations.packingDeviation) (individualSpeed * 2))
    else if 0 < deviations.packingDeviation then
      RecMessage.removeEmployees (jsDiv deviations.packingDeviation (individualSpeed * 2))
    else RecMessage.planMetExactly
  let pickingMessage :=
    if deviations.pickingDeviation < 0 then
      RecMessage.addEmployees (jsDiv (abs deviations.pickingDeviation) (individualSpeed * 2))
    else if 0 < deviations.pickingDeviation then
      RecMessage.removeEmployees (jsDiv deviations.pickingDeviation (individualSpeed * 2))
    else RecMessage.planMetExactly
  { packing :=
      { message := packingMessage
        lastHourAdd := lastHourIndicators.map LastHourIndicators.staffNeededPacking }
    picking :=
      { message := pickingMessage
        lastHourAdd := lastHourIndicators.map LastHourIndicators.staffNeededPicking } }

/-- `calculateLastHourIndicators` from `src/utils/calculations.js`: guarded on
missing shift times and a falsy `expectedOrders`; `expectedOrdersLastHour = R/2`
and the staff-needed figures are guarded by `avgSpeed > 0 ? ... : 0`.
(The source's unused local `baseRequiredSpeed = R / (R / R)` is dead code and
not modelled.) -/
def calculateLastHourIndicators (settings : Settings) : LastHourIndicators :=
  match settings.shiftStart, settings.shiftEnd with
  | some _, some _ =>
    if settings.expectedOrders = 0 then
      { expectedOrdersLastHour := 0, staffNeededPacking := 0, staffNeededPicking := 0 }
    else
      let R := settings.expectedOrders
      let expectedOrdersLastHour := R / 2
      let avgSpeed := settings.avgSpeed
      { expectedOrdersLastHour := expectedOrdersLastHour
        staffNeededPacking := if 0 < avgSpeed then expectedOrdersLastHour / avgSpeed else 0
        staffNeededPicking := if 0 < avgSpeed then expectedOrdersLastHour / avgSpeed else 0 }
  | _, _ =>
    { expectedOrdersLastHour := 0, staffNeededPacking := 0, staffNeededPicking := 0 }

/-- Artifact-aware mirror of the Deviation Engine's required-speed pipeline
(`baseSpeed = R / totalWorkTime`, candidate, `Math.max`): `none` models a
non-finite JS rate.  The `R / totalWorkTime` division is written exactly as in
the source, with no zero-denominator guard; when `totalWorkTime > 1` both
denominators are nonzero, so `Math.max` never mixes a finite and a non-finite
argument here. -/
def newRequiredSpeedJS (settings : Settings) : Option ℚ :=
  match settings.shiftStart, settings.shiftEnd with
  | some st, some en =>
    let totalWorkTime := (en - st) - totalBreakHours settings.breaks
    let R := settings.expectedOrders
    let baseSpeed := jsDiv R totalWorkTime
    let candidateSpeed :=
      if 1 < totalWorkTime then
        jsDiv (R - settings.staffForLastPeriod * settings.avgSpeed) (totalWorkTime - 1)
      else baseSpeed
    match baseSpeed, candidateSpeed with
    | some b, some c => some (max b c)
    | _, _ => none
  | _, _ => some 0

/-- Claim C3, counterexample: in the §8 scenario (`packingDeviation = −28.57`,
`avgSpeed = 25`) the source recommends adding `28.57 / (25 × 2) = 0.5714`
employees (divisor `avgSpeed * 2`), not the claimed `28.57 / 25 = 1.1428`
(displayed 1.14). -/
theorem C3_recommendation_counterexample :
    (calculateRecommendations ⟨0, -2857/100, 0, 0, 0, 0, 0, 0⟩ ⟨none, none, [], 0, 25, 0⟩
        none).packing.message = RecMessage.addEmployees (some (2857/5000)) ∧
    (2857 / 5000 : ℚ) ≠ 2857 / 2500 := by
  constructor
  · dsimp only [calculateRecommendations]
    rw [if_pos (by norm_num)]
    rw [abs_of_neg (by norm_num : (-2857/100 : ℚ) < 0)]
    norm_num [jsDiv]
  · norm_num

/-- Claim C3 as amended: `calculateRecommendations` maps a negative deviation
to "add `|deviation| / (avgSpeed × 2)` employees", a positive deviation to
"you can remove `deviation / (avgSpeed × 2)` employees", and a zero deviation
to "plan is met exactly", independently for picking and packing (the amendment
is the divisor: `avgSpeed × 2`, not `avgSpeed`); in the §8 scenario with
`packingDeviation = −28.57` and `avgSpeed = 25` the figure is `0.5714`
(displayed 0.57). -/
theorem C3_recommendation_mapping_amended (deviations : DeviationResult) (settings : Settings)
    (lhi : Option LastHourIndicators) :
    (deviations.packingDeviation < 0 →
      (calculateRecommendations deviations settings lhi).packing.message
        = RecMessage.addEmployees
            (jsDiv (abs deviations.packingDeviation) (settings.avgSpeed * 2))) ∧
    (0 < deviations.packingDeviation →
      (calculateRecommendations deviations settings lhi).packing.message
        = RecMessage.removeEmployees
            (jsDiv deviations.packingDeviation (settings.avgSpeed * 2))) ∧
    (deviations.packingDeviation = 0 →
      (calculateRecommendations deviations settings lhi).packing.message
        = RecMessage.planMetExactly) ∧
    (deviations.pickingDeviation < 0 →
      (calculateRecommendations deviations settings lhi).picking.message
        = RecMessage.addEmployees
            (jsDiv (abs deviations.pickingDeviation) (settings.avgSpeed * 2))) ∧
    (0 < deviations.pickingDeviation →
      (calculateRecommendations deviations settings lhi).picking.message
        = RecMessage.removeEmployees
            (jsDiv deviations.pickingDeviation (settings.avgSpeed * 2))) ∧
    (deviations.pickingDeviation = 0 →
      (calculateRecommendations deviations settings lhi).picking.message
        = RecMessage.planMetExactly) ∧
    (calculateRecommendations ⟨0, -2857/100, 0, 0, 0, 0, 0, 0⟩ ⟨none, none, [], 0, 25, 0⟩
        none).packing.message = RecMessage.addEmployees (some (2857/5000)) := by
  refine ⟨fun h => ?_, fun h => ?_, fun h => ?_, fun h => ?_, fun h => ?_, fun h => ?_, ?_⟩
  · dsimp only [calculateRecommendations]
    rw [if_pos h]
  · dsimp only [calculateRecommendations]
    rw [if_neg (not_lt.mpr (le_of_lt h)), if_pos h]
  · dsimp only [calculateRecommendations]
    rw [if_neg (by rw [h]; exact lt_irrefl 0), if_neg (by rw [h]; exact lt_irrefl 0)]
  · dsimp only [calculateRecommendations]
    rw [if_pos h]
  · dsimp only [calculateRecommendations]
    rw [if_neg (not_lt.mpr (le_of_lt h)), if_pos h]
  · dsimp only [calculateRecommendations]
    rw [if_neg (by rw [h]; exact lt_irrefl 0), if_neg (by rw [h]; exact lt_irrefl 0)]
  · dsimp only [calculateRecommendations]
    rw [if_pos (by norm_num)]
    rw [abs_of_neg (by norm_num : (-2857/100 : ℚ) < 0)]
    norm_num [jsDiv]

theorem C3_recommendation_mapping_amended_witness :
    (calculateRecommendations ⟨10, -20, 0, 0, 0, 0, 0, 0⟩ ⟨none, none, [], 0, 25, 0⟩
        none).packing.message = RecMessage.addEmployees (jsDiv (abs (-20 : ℚ)) (25 * 2)) ∧
    (calculateRecommendations ⟨10, -20, 0, 0, 0, 0, 0, 0⟩ ⟨none, none, [], 0, 25, 0⟩
        none).picking.message = RecMessage.removeEmployees (jsDiv 10 (25 * 2)) := by
  have h := C3_recommendation_mapping_amended ⟨10, -20, 0, 0, 0, 0, 0, 0⟩
    ⟨none, none, [], 0, 25, 0⟩ none
  exact ⟨h.1 (by norm_num), h.2.2.2.2.1 (by norm_num)⟩

/-- Claim C8, counterexample: shift 09:00–10:00 with a break 09:00–10:00
consuming the whole shift gives total effective work time 0; the division
`expectedOrders / totalWorkTime` is not guarded and the required-speed output
is the non-finite artifact (`none`), not a defined zero/undefined-rate value
such as `some 0`. -/
theorem C8_division_unguarded_counterexample :
    newRequiredSpeedJS ⟨some 9, some 10, [⟨some 9, some 10⟩], 100, 25, 2⟩ = none ∧
    (none : Option ℚ) ≠ some 0 := by
  constructor
  · dsimp only [newRequiredSpeedJS]
    norm_num [totalBreakHours, breakDuration, jsDiv]
  · simp

/-- Claim C8 as amended: the Deviation Engine does **not** guard the
`expectedOrders / totalWorkTime` division.  Whenever the total effective work
time is exactly 0 the required-speed output is the division artifact
(`Infinity`/`NaN`, modelled `none`); for any nonzero total effective work time
the computation is finite and agrees with the engine's required speed. -/
theorem C8_division_guard_amended (bs : List Break) (R avg staff pa pk now st en : ℚ) :
    ((en - st) - totalBreakHours bs = 0 →
      newRequiredSpeedJS ⟨some st, some en, bs, R, avg, staff⟩ = none) ∧
    ((en - st) - totalBreakHours bs ≠ 0 →
      newRequiredSpeedJS ⟨some st, some en, bs, R, avg, staff⟩
        = some ((calculateDeviations ⟨some st, some en, bs, R, avg, staff⟩ pa
            pk now).requiredSpeedPicking)) := by
  constructor
  · intro h
    dsimp only [newRequiredSpeedJS]
    rw [h]
    norm_num [jsDiv]
  · intro h
    dsimp only [newRequiredSpeedJS, calculateDeviations]
    unfold newRequiredSpeedOf
    by_cases h1 : (1 : ℚ) < (en - st) - totalBreakHours bs
    · rw [if_pos h1, if_pos h1]
      have h2 : (en - st) - totalBreakHours bs - 1 ≠ 0 := by
        intro hc
        rw [sub_eq_zero] at hc
        exact absurd hc.symm (ne_of_lt h1)
      simp [jsDiv, h, h2]
    · rw [if_neg h1, if_neg h1, max_self]
      simp [jsDiv, h]

theorem C8_division_guard_amended_witness :
    newRequiredSpeedJS ⟨some 9, some 10, [⟨some 9, some 10⟩], 100, 25, 2⟩ = none ∧
    newRequiredSpeedJS ⟨some 8, some 16, [], 800, 25, 2⟩
      = some ((calculateDeviations ⟨some 8, some 16, [], 800, 25, 2⟩ 0 0
          12).requiredSpeedPicking) :=
  ⟨(C8_division_guard_amended [⟨some 9, some 10⟩] 100 25 2 0 0 12 9 10).1
      (by norm_num [totalBreakHours, breakDuration]),
   (C8_division_guard_amended [] 800 25 2 0 0 12 8 16).2
      (by norm_num [totalBreakHours])⟩

/-- Claim C9, counterexample: with a zero average speed and a negative packing
deviation, the recommendation figure is the `Infinity` artifact of the
unguarded division (`none`), not zero. -/
theorem C9_zeroSpeed_counterexample :
    (calculateRecommendations ⟨-10, -10, 0, 0, 0, 0, 0, 0⟩ ⟨none, none, [], 0, 0, 0⟩
        none).packing.message = RecMessage.addEmployees none ∧
    RecMessage.addEmployees none ≠ RecMessage.addEmployees (some 0) := by
  constructor
  · dsimp only [calculateRecommendations]
    rw [if_pos (by norm_num)]
    norm_num [jsDiv]
  · simp

/-- Claim C9 as amended: only the last-hour staff-needed figures are guarded —
they report 0 when the average speed is zero; the add/remove employee figures
of `calculateRecommendations` are **not** guarded and produce the undefined
ratio (`Infinity`, modelled `none`) when the average speed is zero. -/
theorem C9_zeroSpeed_guard_amended (settings : Settings) (deviations : DeviationResult)
    (lhi : Option LastHourIndicators) :
    (settings.avgSpeed = 0 →
      (calculateLastHourIndicators settings).staffNeededPicking = 0 ∧
      (calculateLastHourIndicators settings).staffNeededPacking = 0) ∧
    (settings.avgSpeed = 0 → deviations.packingDeviation < 0 →
      (calculateRecommendations deviations settings lhi).packing.message
        = RecMessage.addEmployees none) ∧
    (settings.avgSpeed = 0 → 0 < deviations.pickingDeviation →
      (calculateRecommendations deviations settings lhi).picking.message
        = RecMessage.removeEmployees none) := by
  refine ⟨fun h => ?_, fun h hd => ?_, fun h hd => ?_⟩
  · unfold calculateLastHourIndicators
    rcases settings.shiftStart with _ | a <;> rcases settings.shiftEnd with _ | b
    · exact ⟨rfl, rfl⟩
    · exact ⟨rfl, rfl⟩
    · exact ⟨rfl, rfl⟩
    · split_ifs with h0 <;> simp [h]
  · dsimp only [calculateRecommendations]
    rw [if_pos hd]
    rw [h]
    norm_num [jsDiv]
  · dsimp only [calculateRecommendations]
    rw [if_neg (not_lt.mpr (le_of_lt hd)), if_pos hd]
    rw [h]
    norm_num [jsDiv]

theorem C9_zeroSpeed_guard_amended_witness :
    ((calculateLastHourIndicators ⟨some 8, some 16, [], 800, 0, 2⟩).staffNeededPicking = 0 ∧
     (calculateLastHourIndicators ⟨some 8, some 16, [], 800, 0, 2⟩).staffNeededPacking = 0) ∧
    (calculateRecommendations ⟨-10, -10, 0, 0, 0, 0, 0, 0⟩ ⟨some 8, some 16, [], 800, 0, 2⟩
        none).packing.message = RecMessage.addEmployees none := by
  have h := C9_zeroSpeed_guard_amended ⟨some 8, some 16, [], 800, 0, 2⟩
    ⟨-10, -10, 0, 0, 0, 0, 0, 0⟩ none
  exact ⟨h.1 rfl, h.2.1 rfl (by norm_num)⟩

/-- Claim C6: for break intervals with both endpoints present (and each end at
or after its start), the elapsed break duration counts an interval fully when
it ends at or before the reference instant, partially (`reference − start`)
when the reference instant falls inside it, and zero when it starts at or
after the reference instant; the accumulators are sums over the list; the
total break duration is `end − start` per interval and — by construction, the
total takes no reference instant — is independent of it.  Concrete §8 case:
breaks 09:00–09:15 and 12:00–12:30 at reference 12:10 give 25 minutes
(= 5/12 h) elapsed and 45 minutes (= 3/4 h) total. -/
theorem C6_break_accumulator (s e now : ℚ) (b : Break) (bs : List Break)
    (hse : s ≤ e) :
    (e ≤ now → breakElapsed now ⟨some s, some e⟩ = e - s) ∧
    (s < now → now < e → breakElapsed now ⟨some s, some e⟩ = now - s) ∧
    (now ≤ s → breakElapsed now ⟨some s, some e⟩ = 0) ∧
    breakTimePassedAt now (b :: bs) = breakElapsed now b + breakTimePassedAt now bs ∧
    totalBreakHours (b :: bs) = breakDuration b + totalBreakHours bs ∧
    breakDuration ⟨some s, some e⟩ = e - s ∧
    breakTimePassedAt (73/6) [⟨some 9, some (37/4)⟩, ⟨some 12, some (25/2)⟩] = 5/12 ∧
    totalBreakHours [⟨some 9, some (37/4)⟩, ⟨some 12, some (25/2)⟩] = 3/4 := by
  refine ⟨fun h => ?_, fun h1 h2 => ?_, fun h => ?_, ?_, ?_, rfl, ?_, ?_⟩
  · simp only [breakElapsed]
    rw [if_pos h]
  · simp only [breakElapsed]
    rw [if_neg (not_le.mpr h2), if_pos ⟨h1, h2⟩]
  · simp only [breakElapsed]
    by_cases he : e ≤ now
    · rw [if_pos he]
      linarith
    · rw [if_neg he, if_neg (by rintro ⟨hc, _⟩; linarith)]
  · simp [breakTimePassedAt]
  · simp [totalBreakHours]
  · norm_num [breakTimePassedAt, breakElapsed]
  · norm_num [totalBreakHours, breakDuration]

theorem C6_break_accumulator_witness :
    breakElapsed 3 ⟨some 1, some 2⟩ = 2 - 1 ∧
    breakElapsed (3/2) ⟨some 1, some 2⟩ = 3/2 - 1 ∧
    breakElapsed (1/2) ⟨some 1, some 2⟩ = 0 := by
  have h3 := C6_break_accumulator 1 2 3 ⟨some 1, some 2⟩ [] (by norm_num)
  have h32 := C6_break_accumulator 1 2 (3/2) ⟨some 1, some 2⟩ [] (by norm_num)
  have h12 := C6_break_accumulator 1 2 (1/2) ⟨some 1, some 2⟩ [] (by norm_num)
  exact ⟨h3.1 (by norm_num), (h32.2.1 (by norm_num)) (by norm_num),
    h12.2.2.1 (by norm_num)⟩

/-!
Time Parser (`parseTime`): JS strings are modelled as `List Char`, with
structural-recursive counterparts of the string operations the source uses
(`includes(' ')`, `split(sep)`, `toUpperCase()`, `Number(...)`).
`jsNumber` models `Number` on strings of decimal digits (the only inputs the
claims exercise); `Number("")` is 0 in JS, which the empty fold also gives.
`NaN` propagation from non-numeric time parts is outside the claims' scope
and not modelled.
-/

/-- JS `str.includes(c)` for a single-character needle. -/
def jsIncludes (c : Char) (s : List Char) : Bool := s.contains c

/-- JS `str.split(sep)` for a single-character separator, on `List Char`
(always returns at least one piece; a separator occurrence adds a piece). -/
def splitOnChar (sep : Char) : List Char → List (List Char)
  | [] => [[]]
  | c :: rest =>
    let r := splitOnChar sep rest
    if c = sep then [] :: r
    else
      match r with
      | h :: t => (c :: h) :: t
      | [] => [[c]]

/-- JS `Number(...)` on a decimal-digit string: left fold of digits. -/
def jsNumber (s : List Char) : ℕ :=
  s.foldl (fun acc c => 10 * acc + (c.toNat - 48)) 0

/-- Result of `parseTime`: hours and minutes in 24-hour form. -/
structure TimeHM where
  hours : ℕ
  minutes : ℕ
deriving DecidableEq

/-- JS `str.toUpperCase()` on `List Char`. -/
def toUpperList (s : List Char) : List Char := s.map Char.toUpper

/-- The time-part parse `time.split(':').map(Number)` with destructuring
`[hours, minutes]` (a missing minutes part is modelled as 0; JS would give
`NaN`, outside the claims' scope). -/
def parseHM (t : List Char) : ℕ × ℕ :=
  match splitOnChar ':' t with
  | h :: m :: _ => (jsNumber h, jsNumber m)
  | [h] => (jsNumber h, 0)
  | [] => (0, 0)

/-- The 12-hour branch body after the split (`let [hours, minutes] = ...;
if PM && hours < 12 then +12; if AM && hours === 12 then 0`). -/
def parse12core (time modifier : List Char) : TimeHM :=
  let hm := parseHM time
  let hours1 := if toUpperList modifier = ['P', 'M'] ∧ hm.1 < 12 then hm.1 + 12 else hm.1
  let hours2 := if toUpperList modifier = ['A', 'M'] ∧ hours1 = 12 then 0 else hours1
  ⟨hours2, hm.2⟩

/-- The strict 24-hour branch (`timeStr.split(':').map(Number)`). -/
def parse24hour (timeStr : List Char) : TimeHM :=
  ⟨(parseHM timeStr).1, (parseHM timeStr).2⟩

/-- The 12-hour branch: `const [time, modifier] = timeStr.split(' ')` then
`parse12core` (a missing modifier is the empty string). -/
def parse12hour (timeStr : List Char) : TimeHM :=
  match splitOnChar ' ' timeStr with
  | time :: modifier :: _ => parse12core time modifier
  | [time] => parse12core time []
  | [] => ⟨0, 0⟩

/-- The Time Parser (`parseTime` in `src/utils/calculations.js`): empty input
yields `{0,0}`; a space selects the 12-hour branch, otherwise strict 24-hour
parsing. -/
def parseTime (timeStr : List Char) : TimeHM :=
  if timeStr = [] then ⟨0, 0⟩
  else if !jsIncludes ' ' timeStr then parse24hour timeStr
  else parse12hour timeStr

/-- Claim C7: branch selection by presence of a space; `12 AM` (any case)
yields hour 0; any `PM` hour < 12 gains 12; `12 PM` stays 12; empty input
yields `{0,0}`; and the four concrete parses
`"14:30" → {14,30}`, `"2:30 PM" → {14,30}`, `"12:00 AM" → {0,0}`,
`"12:00 PM" → {12,0}`. -/
theorem C7_parseTime_spec :
    (∀ s, jsIncludes ' ' s = true → parseTime s = parse12hour s) ∧
    (∀ s, s ≠ [] → jsIncludes ' ' s = false → parseTime s = parse24hour s) ∧
    (∀ time modifier h m, parseHM time = (h, m) → toUpperList modifier = ['P', 'M'] →
      h < 12 → parse12core time modifier = ⟨h + 12, m⟩) ∧
    (∀ time modifier m, parseHM time = (12, m) → toUpperList modifier = ['A', 'M'] →
      parse12core time modifier = ⟨0, m⟩) ∧
    (∀ time modifier m, parseHM time = (12, m) → toUpperList modifier = ['P', 'M'] →
      parse12core time modifier = ⟨12, m⟩) ∧
    parseTime [] = ⟨0, 0⟩ ∧
    parseTime ['1', '4', ':', '3', '0'] = ⟨14, 30⟩ ∧
    parseTime ['2', ':', '3', '0', ' ', 'P', 'M'] = ⟨14, 30⟩ ∧
    parseTime ['1', '2', ':', '0', '0', ' ', 'A', 'M'] = ⟨0, 0⟩ ∧
    parseTime ['1', '2', ':', '0', '0', ' ', 'P', 'M'] = ⟨12, 0⟩ := by
  refine ⟨fun s h => ?_, fun s hne h => ?_, fun time modifier h m hhm hpm hlt => ?_,
    fun time modifier m hhm ham => ?_, fun time modifier m hhm hpm => ?_,
    by decide, by decide, by decide, by decide, by decide⟩
  · have hne : s ≠ [] := by
      intro he
      rw [he] at h
      exact absurd h (by decide)
    rw [parseTime, if_neg hne, h]
    simp
  · rw [parseTime, if_neg hne, h]
    simp
  · dsimp only [parse12core]
    rw [hhm, hpm]
    dsimp only
    rw [show (if ['P', 'M'] = ['P', 'M'] ∧ h < 12 then h + 12 else h) = h + 12 from
        if_pos ⟨rfl, hlt⟩]
    rw [if_neg (by rintro ⟨hc, _⟩; exact absurd hc (by decide))]
  · dsimp only [parse12core]
    rw [hhm, ham]
    dsimp only
    rw [show (if ['A', 'M'] = ['P', 'M'] ∧ 12 < 12 then 12 + 12 else 12) = 12 from
        if_neg (by rintro ⟨hc, _⟩; exact absurd hc (by decide))]
    rw [if_pos ⟨rfl, rfl⟩]
  · dsimp only [parse12core]
    rw [hhm, hpm]
    dsimp only
    rw [show (if ['P', 'M'] = ['P', 'M'] ∧ 12 < 12 then 12 + 12 else 12) = 12 from
        if_neg (by rintro ⟨_, hc⟩; exact absurd hc (lt_irrefl 12))]
    rw [if_neg (by rintro ⟨hc, _⟩; exact absurd hc (by decide))]

theorem C7_parseTime_spec_witness :
    parseTime ['2', ':', '3', '0', ' ', 'P', 'M'] = parse12hour ['2', ':', '3', '0', ' ', 'P', 'M'] ∧
    parseTime ['1', '4', ':', '3', '0'] = parse24hour ['1', '4', ':', '3', '0'] ∧
    parse12core ['2', ':', '3', '0'] ['p', 'm'] = ⟨2 + 12, 30⟩ ∧
    parse12core ['1', '2', ':', '0', '0'] ['a', 'm'] = ⟨0, 0⟩ ∧
    parse12core ['1', '2', ':', '0', '0'] ['P', 'M'] = ⟨12, 0⟩ := by
  refine ⟨C7_parseTime_spec.1 _ (by decide),
    C7_parseTime_spec.2.1 _ (by decide) (by decide),
    C7_parseTime_spec.2.2.1 _ _ 2 30 (by decide) (by decide) (by decide),
    C7_parseTime_spec.2.2.2.1 _ _ 0 (by decide) (by decide),
    C7_parseTime_spec.2.2.2.2.1 _ _ 0 (by decide) (by decide)⟩

end WarehouseCalc
